import Mathlib

/-
Verification development for the whale-watcher ETL pipeline.

The decoder `decode_swap_log` and the pipeline `get_crypto_data` below are
shallow embeddings of the functions of the same names in
`src/etl_pipeline.py`.  Python's partial functions (which raise exceptions)
become `Option`-valued functions, with `none` standing for a raised
exception.  Strings are Lean `String`s; byte values are `Nat`s below 256;
the signed 256-bit amounts are unbounded `Int`s, exactly as Python's
arbitrary-precision `int`.
-/

/-- Value of a hexadecimal digit, as accepted by Python's `bytes.fromhex`
(digits `0`-`9`, `a`-`f`, `A`-`F`). -/
def hexVal (c : Char) : Option Nat :=
  if '0' ≤ c ∧ c ≤ '9' then some (c.toNat - 48)
  else if 'a' ≤ c ∧ c ≤ 'f' then some (c.toNat - 87)
  else if 'A' ≤ c ∧ c ≤ 'F' then some (c.toNat - 55)
  else none

/-- ASCII whitespace skipped by CPython's `bytes.fromhex`
(`Py_ISSPACE`: space, tab, newline, vertical tab, form feed, carriage
return). -/
def pySpace (c : Char) : Bool :=
  c = ' ' || c = '\t' || c = '\n' || c = '\x0b' || c = '\x0c' || c = '\r'

/-- Embedding of `bytes.fromhex`: skip ASCII whitespace before each byte,
then read two adjacent hex digits; any other character, or a dangling
single digit, raises `ValueError` (here: `none`). -/
def bytesFromHex : List Char → Option (List Nat)
  | [] => some []
  | c :: rest =>
    if pySpace c then bytesFromHex rest
    else
      match hexVal c with
      | none => none
      | some h1 =>
        match rest with
        | [] => none
        | c2 :: rest2 =>
          match hexVal c2 with
          | none => none
          | some h2 => (bytesFromHex rest2).map (fun bs => (16 * h1 + h2) :: bs)

/-- Unsigned big-endian value of a byte string, as `int.from_bytes(_, 'big')`. -/
def bytesToNat (bs : List Nat) : Nat :=
  bs.foldl (fun a b => 256 * a + b) 0

/-- Embedding of `int.from_bytes(bs, byteorder='big', signed=True)`:
two's complement, the high bit of the first byte is the sign; the empty
byte string decodes to 0. -/
def intFromBytesBE (bs : List Nat) : Int :=
  if 128 ≤ bs.headD 0 then (bytesToNat bs : Int) - (256 : Int) ^ bs.length
  else (bytesToNat bs : Int)

/-- Embedding of the `log_data.startswith('0x')` strip in `decode_swap_log`. -/
def stripMarker : List Char → List Char
  | '0' :: 'x' :: rest => rest
  | l => l

/-- Embedding of `decode_swap_log` (src/etl_pipeline.py lines 9-23): strip an
optional `0x` marker, slice characters `[0:64]` and `[64:128]` (Python slices
silently truncate on short input), and decode each slice as a big-endian
signed integer.  `none` models the `ValueError` raised by `bytes.fromhex`. -/
def decode_swap_log (log_data : String) : Option (Int × Int) :=
  let l := stripMarker log_data.data
  match bytesFromHex (l.take 64), bytesFromHex ((l.drop 64).take 64) with
  | some b0, some b1 => some (intFromBytesBE b0, intFromBytesBE b1)
  | _, _ => none

/-! ### Data model of the pipeline (src/etl_pipeline.py, get_crypto_data) -/

/-- A fetched source row, the columns selected by the BigQuery statement:
sender, pool_address, data, value, block_timestamp.  Timestamps are modelled
as integer seconds; the five-minute threshold below is 300. -/
structure SwapRow where
  sender : String
  pool_address : String
  data : String
  value : Int
  block_timestamp : Int
deriving DecidableEq

/-- A row after the decode and bot-detection stages: the source row plus the
decoded `amount0`, `amount1` columns and the `is_bot` flag. -/
structure ClassifiedRow where
  row : SwapRow
  amount0 : Int
  amount1 : Int
  is_bot : Bool
deriving DecidableEq

/-- A display row after annotation: the classified row plus the
`AI_Narrative` column. -/
structure AnnotatedRow where
  classified : ClassifiedRow
  AI_Narrative : String
deriving DecidableEq

/-- Outcome of one `model.generate_content` call: a successful response
text, a `NotFound`/`TooManyRequests` exception, or any other exception. -/
inductive GenResult where
  | ok (text : String)
  | rateLimited
  | err
deriving DecidableEq

/-- Result of one pipeline run: the returned dataframe rows, plus the list
of rows for which a `generate_content` call was issued (for accounting of
external calls; the real code performs exactly one call per such row). -/
structure RunOutput where
  rows : List AnnotatedRow
  calls : List ClassifiedRow
deriving DecidableEq

/-! ### Bot detection (src/etl_pipeline.py lines 88-94) -/

/-- Scan of the consecutive deltas of an ascending timestamp list: true iff
some consecutive pair is at most 300 seconds (5 minutes) apart.  This is the
`time_diff <= threshold` test after `groupby('sender').diff()`. -/
def hasQuickPair : List Int → Bool
  | a :: b :: rest => decide (b - a ≤ 300) || hasQuickPair (b :: rest)
  | _ => false

/-- Timestamps of one sender's rows, sorted ascending — the order produced
by `sort_values(by=['sender', 'block_timestamp'])` within one group. -/
def sortedTimestampsOf (rows : List SwapRow) (s : String) : List Int :=
  List.insertionSort (· ≤ ·)
    ((rows.filter (fun r => decide (r.sender = s))).map (fun r => r.block_timestamp))

/-- A sender lands in `bot_senders` iff some consecutive pair of its
timestamps is within the threshold. -/
def isBotSender (rows : List SwapRow) (s : String) : Bool :=
  hasQuickPair (sortedTimestampsOf rows s)

/-! ### Decode and classify stages -/

/-- Decode one row's payload and attach the bot flag of its sender.
Mirrors the `df['data'].apply(decode_swap_log)` and `isin(bot_senders)`
column assignments. -/
def decodeClassifyOne (rows : List SwapRow) (r : SwapRow) : Option ClassifiedRow :=
  (decode_swap_log r.data).map
    (fun p => ⟨r, p.1, p.2, isBotSender rows r.sender⟩)

/-- Option-valued map over a list: `none` as soon as one element fails,
modelling an uncaught exception inside a dataframe `apply`. -/
def optionMapList (f : α → Option β) : List α → Option (List β)
  | [] => some []
  | a :: l =>
    match f a, optionMapList f l with
    | some b, some bs => some (b :: bs)
    | _, _ => none

/-- Decode and classify every fetched row; `none` models the run dying on a
malformed payload. -/
def classifyDecoded (rows : List SwapRow) : Option (List ClassifiedRow) :=
  optionMapList (decodeClassifyOne rows) rows

/-! ### Display selection and annotation (src/etl_pipeline.py lines 95-131) -/

/-- Descending-timestamp order used by
`sort_values(by='block_timestamp', ascending=False)`. -/
def tsDesc (a b : ClassifiedRow) : Prop :=
  b.row.block_timestamp ≤ a.row.block_timestamp

instance : DecidableRel tsDesc :=
  fun _ _ => inferInstanceAs (Decidable (_ ≤ _))

instance : IsTotal ClassifiedRow tsDesc :=
  ⟨fun a b => (le_total b.row.block_timestamp a.row.block_timestamp)⟩

instance : IsTrans ClassifiedRow tsDesc :=
  ⟨fun _ _ _ h1 h2 => le_trans h2 h1⟩

/-- The display set: all classified rows sorted newest first, capped at 20
(`.head(20)`). -/
def displayOf (crows : List ClassifiedRow) : List ClassifiedRow :=
  (List.insertionSort tsDesc crows).take 20

/-- Fixed placeholder appended for every display row beyond the first 10. -/
def skippedText : String := "analysis skipped to save api credits. [neutral]"

/-- Narrative of one attempted row: the stripped response text on success,
or the fixed fallback of the matching `except` clause. -/
def narrativeFor (model : ClassifiedRow → GenResult) (r : ClassifiedRow) : String :=
  match model r with
  | GenResult.ok t => t.trim
  | GenResult.rateLimited => "analysis unavailable (api limit). [neutral]"
  | GenResult.err => "analysis failed. [neutral]"

/-- The `ai_narratives` list: one entry per row of `df.head(10)` from the
annotation loop, then `len(df) - 10` copies of the skipped placeholder
(`range` of a negative number is empty, so short display sets add none). -/
def narrativesFor (model : ClassifiedRow → GenResult) (display : List ClassifiedRow) : List String :=
  (display.take 10).map (narrativeFor model) ++
    List.replicate (display.length - 10) skippedText

/-- Embedding of `get_crypto_data` from the fetch outcome onward
(credential loading is environment I/O outside this model).  `fetch` is the
BigQuery outcome: `Except.error` models the caught query failure,
`Except.ok` the fetched rows.  `model` abstracts `model.generate_content`
on the (deterministic) prompt built from a classified row.  The `none`
result models the run dying on a malformed payload. -/
def get_crypto_data (fetch : Except Unit (List SwapRow))
    (model : ClassifiedRow → GenResult) : Option RunOutput :=
  match fetch with
  | Except.error _ => some ⟨[], []⟩
  | Except.ok rows =>
    if rows.isEmpty then some ⟨[], []⟩
    else
      match classifyDecoded rows with
      | none => none
      | some crows =>
        let display := displayOf crows
        some ⟨List.zipWith AnnotatedRow.mk display (narrativesFor model display),
              display.take 10⟩

/-! ### Reference encoder for the round-trip claim -/

/-- Lower-case hex digit of a value below 16. -/
def hexDigitChar (n : Nat) : Char :=
  if n < 10 then Char.ofNat (48 + n) else Char.ofNat (87 + n)

/-- Hex rendering of a byte string, two digits per byte. -/
def bytesToHex (bs : List Nat) : List Char :=
  bs.flatMap (fun b => [hexDigitChar (b / 16), hexDigitChar (b % 16)])

/-- Big-endian byte string of `v mod 256^n`, exactly `n` bytes. -/
def natToBytesBE : Nat → Nat → List Nat
  | 0, _ => []
  | n + 1, v => natToBytesBE n (v / 256) ++ [v % 256]

/-- Two's-complement 256-bit representative of an integer. -/
def twosComp256 (a : Int) : Nat := (a % (2 : Int) ^ 256).toNat

/-- One 64-hex-character big-endian two's-complement segment. -/
def encodeSegment (a : Int) : List Char :=
  bytesToHex (natToBytesBE 32 (twosComp256 a))

/-- The 128-hex-character payload encoding a pair of signed 256-bit
integers, as the specification describes the swap-log layout. -/
def encodePayload (a0 a1 : Int) : String :=
  String.mk (encodeSegment a0 ++ encodeSegment a1)

/-! ### Lemmas about the hex codec -/

theorem hexVal_hexDigitChar : ∀ x, x < 16 → hexVal (hexDigitChar x) = some x := by
  decide

theorem pySpace_hexDigitChar : ∀ x, x < 16 → pySpace (hexDigitChar x) = false := by
  decide

theorem hexDigitChar_ne_x : ∀ x, x < 16 → hexDigitChar x ≠ 'x' := by
  decide

theorem length_bytesToHex (bs : List Nat) : (bytesToHex bs).length = 2 * bs.length := by
  induction bs with
  | nil => rfl
  | cons b rest ih =>
    simp only [bytesToHex, List.flatMap_cons] at ih ⊢
    simp [ih]
    omega

theorem bytesFromHex_bytesToHex (bs : List Nat) (h : ∀ b ∈ bs, b < 256) :
    bytesFromHex (bytesToHex bs) = some bs := by
  induction bs with
  | nil => rfl
  | cons b rest ih =>
    have hb : b < 256 := h b (List.mem_cons_self _ _)
    have h1 : b / 16 < 16 := by omega
    have h2 : b % 16 < 16 := by omega
    have ih2 := ih (fun x hx => h x (List.mem_cons_of_mem _ hx))
    simp only [bytesToHex, List.flatMap_cons, List.cons_append, List.nil_append]
    rw [bytesFromHex]
    rw [pySpace_hexDigitChar _ h1]
    simp only [Bool.false_eq_true, if_false]
    rw [hexVal_hexDigitChar _ h1, hexVal_hexDigitChar _ h2]
    simp only [bytesToHex] at ih2
    rw [ih2]
    simp only [Option.map_some]
    have hdm : 16 * (b / 16) + b % 16 = b := by omega
    rw [hdm]
    rfl

theorem length_natToBytesBE : ∀ n v, (natToBytesBE n v).length = n := by
  intro n
  induction n with
  | zero => intro v; rfl
  | succ n ih =>
    intro v
    simp [natToBytesBE, ih]

theorem mem_natToBytesBE_lt : ∀ n v, ∀ b ∈ natToBytesBE n v, b < 256 := by
  intro n
  induction n with
  | zero => intro v b hb; simp [natToBytesBE] at hb
  | succ n ih =>
    intro v b hb
    simp only [natToBytesBE, List.mem_append, List.mem_singleton] at hb
    rcases hb with hb | hb
    · exact ih _ _ hb
    · omega

theorem bytesToNat_natToBytesBE : ∀ n v, bytesToNat (natToBytesBE n v) = v % 256 ^ n := by
  intro n
  induction n with
  | zero => intro v; simp [natToBytesBE, bytesToNat, Nat.mod_one]
  | succ n ih =>
    intro v
    simp only [natToBytesBE, bytesToNat, List.foldl_append, List.foldl_cons, List.foldl_nil]
    have := ih (v / 256)
    simp only [bytesToNat] at this
    rw [this]
    have hpow : (256 : Nat) ^ (n + 1) = 256 * 256 ^ n := by
      rw [pow_succ]; ring
    rw [hpow, Nat.mod_mul]
    ring

theorem headD_append_left (l l' : List α) (d : α) (h : l ≠ []) :
    (l ++ l').headD d = l.headD d := by
  cases l with
  | nil => exact absurd rfl h
  | cons a t => rfl

theorem natToBytesBE_ne_nil (n v : Nat) (h : 0 < n) : natToBytesBE n v ≠ [] := by
  intro hnil
  have := length_natToBytesBE n v
  rw [hnil] at this
  simp at this
  omega

theorem headD_natToBytesBE : ∀ n v, (natToBytesBE (n + 1) v).headD 0 = v / 256 ^ n % 256 := by
  intro n
  induction n with
  | zero => intro v; simp [natToBytesBE]
  | succ n ih =>
    intro v
    show (natToBytesBE (n + 1) (v / 256) ++ [v % 256]).headD 0 = _
    rw [headD_append_left _ _ _ (natToBytesBE_ne_nil _ _ (Nat.succ_pos n))]
    rw [ih (v / 256)]
    rw [Nat.div_div_eq_div_mul]
    congr 2
    rw [pow_succ]
    ring

set_option maxRecDepth 8000

theorem intFromBytesBE_natToBytesBE (u : Nat) (hu : u < 2 ^ 256) :
    intFromBytesBE (natToBytesBE 32 u) =
      if 2 ^ 255 ≤ u then (u : Int) - 2 ^ 256 else (u : Int) := by
  have hlen := length_natToBytesBE 32 u
  have hval := bytesToNat_natToBytesBE 32 u
  have hhead := headD_natToBytesBE 31 u
  unfold intFromBytesBE
  rw [hhead, hlen, hval]
  have hmod : u % 256 ^ 32 = u := by omega
  rw [hmod]
  have hdiv : u / 256 ^ 31 % 256 = u / 256 ^ 31 := by omega
  rw [hdiv]
  have hcond : (128 ≤ u / 256 ^ 31) ↔ (2 ^ 255 ≤ u) := by omega
  by_cases hc : 2 ^ 255 ≤ u
  · rw [if_pos (hcond.mpr hc), if_pos hc]
    norm_num
  · rw [if_neg (fun hh => hc (hcond.mp hh)), if_neg hc]

theorem intFromBytesBE_twosComp (a : Int)
    (hl : -(2 ^ 255) ≤ a) (hu : a < 2 ^ 255) :
    intFromBytesBE (natToBytesBE 32 (twosComp256 a)) = a := by
  have hu2 : twosComp256 a < 2 ^ 256 := by
    unfold twosComp256; omega
  rw [intFromBytesBE_natToBytesBE _ hu2]
  unfold twosComp256
  split_ifs with h <;> omega

theorem length_encodeSegment (a : Int) : (encodeSegment a).length = 64 := by
  unfold encodeSegment
  rw [length_bytesToHex, length_natToBytesBE]

theorem bytesFromHex_encodeSegment (a : Int) :
    bytesFromHex (encodeSegment a) = some (natToBytesBE 32 (twosComp256 a)) :=
  bytesFromHex_bytesToHex _ (mem_natToBytesBE_lt 32 _)

theorem encodeSegment_shape (a : Int) :
    ∃ c0 c1 t, encodeSegment a = c0 :: c1 :: t ∧ c1 ≠ 'x' := by
  obtain ⟨b, bs, hbs⟩ : ∃ b bs, natToBytesBE 32 (twosComp256 a) = b :: bs := by
    cases hh : natToBytesBE 32 (twosComp256 a) with
    | nil => exact absurd hh (natToBytesBE_ne_nil _ _ (by norm_num))
    | cons b bs => exact ⟨b, bs, rfl⟩
  refine ⟨hexDigitChar (b / 16), hexDigitChar (b % 16), bytesToHex bs, ?_, ?_⟩
  · unfold encodeSegment
    rw [hbs]
    simp [bytesToHex]
  · exact hexDigitChar_ne_x (b % 16) (by omega)

theorem stripMarker_cons2 {c0 c1 : Char} {t : List Char} (h : c1 ≠ 'x') :
    stripMarker (c0 :: c1 :: t) = c0 :: c1 :: t := by
  rw [stripMarker.eq_def]
  split
  · simp_all
  · rfl

/-- C2: for every pair of signed 256-bit integers, each in the full range
including the extremes and zero, encoding them as two consecutive
64-hex-character big-endian two's-complement segments and applying the
decoder yields exactly the original pair.  (The decoder is a pure Lean
function, hence deterministic and side-effect free.) -/
theorem decode_swap_log_roundtrip (a0 a1 : Int)
    (h0l : -(2 ^ 255) ≤ a0) (h0u : a0 < 2 ^ 255)
    (h1l : -(2 ^ 255) ≤ a1) (h1u : a1 < 2 ^ 255) :
    decode_swap_log (encodePayload a0 a1) = some (a0, a1) := by
  obtain ⟨c0, c1, t, hseg, hne⟩ := encodeSegment_shape a0
  have hstrip : stripMarker (encodeSegment a0 ++ encodeSegment a1)
      = encodeSegment a0 ++ encodeSegment a1 := by
    rw [hseg, List.cons_append, List.cons_append, stripMarker_cons2 hne]
  have htake : (encodeSegment a0 ++ encodeSegment a1).take 64 = encodeSegment a0 := by
    have h := List.take_left (encodeSegment a0) (encodeSegment a1)
    rwa [length_encodeSegment] at h
  have hdrop : (encodeSegment a0 ++ encodeSegment a1).drop 64 = encodeSegment a1 := by
    have h := List.drop_left (encodeSegment a0) (encodeSegment a1)
    rwa [length_encodeSegment] at h
  have htake2 : (encodeSegment a1).take 64 = encodeSegment a1 :=
    List.take_of_length_le (le_of_eq (length_encodeSegment a1))
  simp only [decode_swap_log, encodePayload]
  rw [hstrip, htake, hdrop, htake2]
  rw [bytesFromHex_encodeSegment a0, bytesFromHex_encodeSegment a1]
  show some (intFromBytesBE (natToBytesBE 32 (twosComp256 a0)),
             intFromBytesBE (natToBytesBE 32 (twosComp256 a1))) = some (a0, a1)
  rw [intFromBytesBE_twosComp a0 h0l h0u, intFromBytesBE_twosComp a1 h1l h1u]

/-! ### Failure behaviour of the decoder -/

theorem bytesFromHex_none_of_bad (c : Char) (hhex : hexVal c = none)
    (hsp : pySpace c = false) :
    ∀ m : List Char, c ∈ m → bytesFromHex m = none := by
  intro m
  induction m using bytesFromHex.induct with
  | case1 =>
    intro h
    simp at h
  | case2 d rest hd ih =>
    intro hmem
    rw [bytesFromHex, if_pos hd]
    apply ih
    rcases List.mem_cons.mp hmem with h | h
    · rw [h] at hsp
      rw [hd] at hsp
      exact absurd hsp (by simp)
    · exact h
  | case3 d rest hd hdn =>
    intro _
    rw [bytesFromHex, if_neg hd, hdn]
  | case4 d hd v hv =>
    intro _
    rw [bytesFromHex, if_neg hd, hv]
  | case5 d hd v hv d2 rest2 hv2 =>
    intro _
    rw [bytesFromHex, if_neg hd, hv]
    dsimp only
    rw [hv2]
  | case6 d hd v hv d2 rest2 v2 hv2 ih =>
    intro hmem
    have hcd : c ≠ d := fun h => by rw [h, hv] at hhex; exact Option.noConfusion hhex
    have hcd2 : c ≠ d2 := fun h => by rw [h, hv2] at hhex; exact Option.noConfusion hhex
    have hmem2 : c ∈ rest2 := by
      rcases List.mem_cons.mp hmem with h | h
      · exact absurd h hcd
      · rcases List.mem_cons.mp h with h2 | h2
        · exact absurd h2 hcd2
        · exact h2
    rw [bytesFromHex, if_neg hd, hv]
    dsimp only
    rw [hv2, ih hmem2]
    rfl

/-- C1 (amended): decode fails whenever one of the first 128 characters
after marker-stripping is neither a hex digit nor ASCII whitespace.  (The
original claim also made decode fail on every payload with fewer than 128
hex characters; the counterexample below refutes that part.) -/
theorem decode_swap_log_fails_on_bad_char (s : String) (c : Char)
    (hc : c ∈ (stripMarker s.data).take 128)
    (hhex : hexVal c = none) (hsp : pySpace c = false) :
    decode_swap_log s = none := by
  have hsplit : (stripMarker s.data).take 128
      = (stripMarker s.data).take 64 ++ ((stripMarker s.data).drop 64).take 64 :=
    List.take_add _ 64 64
  rw [hsplit, List.mem_append] at hc
  simp only [decode_swap_log]
  rcases hc with h | h
  · rw [bytesFromHex_none_of_bad c hhex hsp _ h]
  · rw [bytesFromHex_none_of_bad c hhex hsp _ h]
    cases bytesFromHex ((stripMarker s.data).take 64) <;> rfl

/-- Witness for the amended C1 at a concrete input containing the non-hex,
non-whitespace character z. -/
theorem decode_swap_log_fails_on_bad_char_witness :
    decode_swap_log ("zz") = none :=
  decode_swap_log_fails_on_bad_char ("zz") 'z' (by decide) (by decide) (by decide)

/-- Counterexample to C1 as stated: the input has fewer than 128 characters
after marker-stripping and even contains a non-hex character (a space)
among its first 128 characters, yet decode returns a value pair instead of
failing: the two segments are silently truncated. -/
theorem decode_swap_log_short_input_succeeds :
    (stripMarker (String.data ("aa bb"))).length < 128 ∧
    (' ') ∈ (stripMarker (String.data ("aa bb"))).take 128 ∧
    hexVal (' ') = none ∧
    decode_swap_log ("aa bb") = some (-21829, 0) := by
  decide

/-- C9: decode applied to the empty string, or to the bare marker, returns
the pair (0, 0) without failing: both 64-character slices are empty and
each empty byte string decodes to the integer 0. -/
theorem decode_swap_log_empty_and_marker :
    decode_swap_log ("") = some (0, 0) ∧ decode_swap_log ("0x") = some (0, 0) := by
  constructor <;> rfl

/-- Witness for the round-trip at the extreme points of the signed
256-bit range. -/
theorem decode_swap_log_roundtrip_witness :
    decode_swap_log (encodePayload (-(2 ^ 255)) (2 ^ 255 - 1))
      = some (-(2 ^ 255), 2 ^ 255 - 1) :=
  decode_swap_log_roundtrip (-(2 ^ 255)) (2 ^ 255 - 1)
    (by norm_num) (by norm_num) (by norm_num) (by norm_num)

/-! ### Lemmas about the classify stage -/

theorem optionMapList_length (f : α → Option β) :
    ∀ l : List α, ∀ bs : List β, optionMapList f l = some bs → bs.length = l.length := by
  intro l
  induction l with
  | nil =>
    intro bs h
    obtain rfl : ([] : List β) = bs := by simpa [optionMapList] using h
    rfl
  | cons a t ih =>
    intro bs h
    rw [optionMapList] at h
    cases hfa : f a with
    | none => rw [hfa] at h; exact absurd h (by simp)
    | some b =>
      rw [hfa] at h
      cases hrest : optionMapList f t with
      | none => rw [hrest] at h; exact absurd h (by simp)
      | some bs2 =>
        rw [hrest] at h
        obtain rfl : b :: bs2 = bs := by simpa using h
        simp [ih bs2 hrest]

theorem optionMapList_mem (f : α → Option β) :
    ∀ l : List α, ∀ bs : List β, optionMapList f l = some bs →
      ∀ b ∈ bs, ∃ a ∈ l, f a = some b := by
  intro l
  induction l with
  | nil =>
    intro bs h b hb
    obtain rfl : ([] : List β) = bs := by simpa [optionMapList] using h
    simp at hb
  | cons a t ih =>
    intro bs h b hb
    rw [optionMapList] at h
    cases hfa : f a with
    | none => rw [hfa] at h; exact absurd h (by simp)
    | some b0 =>
      rw [hfa] at h
      cases hrest : optionMapList f t with
      | none => rw [hrest] at h; exact absurd h (by simp)
      | some bs2 =>
        rw [hrest] at h
        obtain rfl : b0 :: bs2 = bs := by simpa using h
        rcases List.mem_cons.mp hb with hb0 | hb2
        · exact ⟨a, List.mem_cons_self _ _, by rw [hfa, hb0]⟩
        · obtain ⟨a2, ha2, hfa2⟩ := ih bs2 hrest b hb2
          exact ⟨a2, List.mem_cons_of_mem _ ha2, hfa2⟩

theorem classifyDecoded_is_bot (rows : List SwapRow) (crows : List ClassifiedRow)
    (h : classifyDecoded rows = some crows) (c : ClassifiedRow) (hc : c ∈ crows) :
    c.is_bot = isBotSender rows c.row.sender := by
  obtain ⟨a, _, hfa⟩ := optionMapList_mem _ rows crows h c hc
  unfold decodeClassifyOne at hfa
  cases hd : decode_swap_log a.data with
  | none => rw [hd] at hfa; exact absurd hfa (by simp)
  | some p =>
    rw [hd] at hfa
    obtain rfl : (⟨a, p.1, p.2, isBotSender rows a.sender⟩ : ClassifiedRow) = c := by
      simpa using hfa
    rfl

theorem hasQuickPair_iff (l : List Int) : hasQuickPair l = true ↔
    ∃ i : Nat, i + 1 < l.length ∧ l.getD (i + 1) 0 - l.getD i 0 ≤ 300 := by
  induction l using hasQuickPair.induct with
  | case1 a b rest ih =>
    rw [hasQuickPair, Bool.or_eq_true, decide_eq_true_eq, ih]
    constructor
    · rintro (h | ⟨i, hi, hle⟩)
      · refine ⟨0, by simp, ?_⟩
        simpa using h
      · refine ⟨i + 1, by simp at hi ⊢; omega, ?_⟩
        simpa using hle
    · rintro ⟨i, hi, hle⟩
      cases i with
      | zero =>
        left
        simpa using hle
      | succ j =>
        right
        refine ⟨j, by simp at hi ⊢; omega, ?_⟩
        simpa using hle
  | case2 t h =>
    have hfalse : hasQuickPair t = false := by
      cases t with
      | nil => rfl
      | cons a t2 =>
        cases t2 with
        | nil => rfl
        | cons b rest => exact absurd rfl (h a b rest)
    have hlen : t.length ≤ 1 := by
      cases t with
      | nil => simp
      | cons a t2 =>
        cases t2 with
        | nil => simp
        | cons b rest => exact absurd rfl (h a b rest)
    rw [hfalse]
    simp only [Bool.false_eq_true, false_iff]
    rintro ⟨i, hi, _⟩
    omega

/-- C3: an event's bot flag in the classified run is true exactly when its
actor's ascending-sorted timestamp list contains a consecutive pair at most
the 5-minute threshold (300 s) apart; when every consecutive delta exceeds
the threshold the flag is false.  The flag depends only on the event's
sender, so it is shared by every event of the actor in the run. -/
theorem classified_is_bot_iff (rows : List SwapRow) (crows : List ClassifiedRow)
    (c : ClassifiedRow) (hc : classifyDecoded rows = some crows) (hmem : c ∈ crows) :
    c.is_bot = true ↔
      ∃ i : Nat, i + 1 < (sortedTimestampsOf rows c.row.sender).length ∧
        (sortedTimestampsOf rows c.row.sender).getD (i + 1) 0
          - (sortedTimestampsOf rows c.row.sender).getD i 0 ≤ 300 := by
  rw [classifyDecoded_is_bot rows crows hc c hmem]
  exact hasQuickPair_iff _

/-- Two events of the actor a, 100 seconds apart. -/
def witRowA : SwapRow := ⟨"a", "p", "", 0, 1000⟩

/-- Second event of the actor a. -/
def witRowB : SwapRow := ⟨"a", "p", "", 0, 1100⟩

/-- A lone event of the actor b. -/
def witRowC : SwapRow := ⟨"b", "p", "", 0, 5000⟩

/-- Concrete classified run used by the witnesses below. -/
def witC3rows : List SwapRow := [witRowA, witRowB]

/-- Classified rows of the two-event run. -/
def witC3crows : List ClassifiedRow :=
  [⟨witRowA, 0, 0, true⟩, ⟨witRowB, 0, 0, true⟩]

/-- One classified event of the two-event run. -/
def witC3c : ClassifiedRow := ⟨witRowA, 0, 0, true⟩

/-- Witness for C3 on a concrete two-event run with a 100-second gap. -/
theorem classified_is_bot_iff_witness :
    witC3c.is_bot = true ↔
      ∃ i : Nat, i + 1 < (sortedTimestampsOf witC3rows (witC3c.row.sender)).length ∧
        (sortedTimestampsOf witC3rows (witC3c.row.sender)).getD (i + 1) 0
          - (sortedTimestampsOf witC3rows (witC3c.row.sender)).getD i 0 ≤ 300 :=
  classified_is_bot_iff witC3rows witC3crows witC3c (by decide) (by decide)

/-- C6: an actor with exactly one event in the run is never flagged as a
bot, whatever its timestamp and whatever the other actors do. -/
theorem single_event_actor_not_bot (rows : List SwapRow) (actor : String)
    (hone : (rows.filter (fun r => decide (r.sender = actor))).length = 1)
    (crows : List ClassifiedRow) (hc : classifyDecoded rows = some crows)
    (c : ClassifiedRow) (hmem : c ∈ crows) (hs : c.row.sender = actor) :
    c.is_bot = false := by
  rw [classifyDecoded_is_bot rows crows hc c hmem, hs]
  unfold isBotSender
  have hlen : (sortedTimestampsOf rows actor).length = 1 := by
    unfold sortedTimestampsOf
    rw [List.length_insertionSort, List.length_map, hone]
  obtain ⟨x, hx⟩ := List.length_eq_one.mp hlen
  rw [hx]
  rfl

/-- Three-event run: two quick events of actor a and one lone event of
actor b. -/
def witC6rows : List SwapRow := [witRowA, witRowB, witRowC]

/-- Classified rows of the three-event run: a is flagged, b is not. -/
def witC6crows : List ClassifiedRow :=
  [⟨witRowA, 0, 0, true⟩, ⟨witRowB, 0, 0, true⟩, ⟨witRowC, 0, 0, false⟩]

/-- Witness for C6: the lone event of actor b is not flagged even though
actor a trades quickly in the same run. -/
theorem single_event_actor_not_bot_witness :
    (⟨witRowC, 0, 0, false⟩ : ClassifiedRow).is_bot = false :=
  single_event_actor_not_bot witC6rows ("b") (by decide) witC6crows (by decide)
    (⟨witRowC, 0, 0, false⟩ : ClassifiedRow) (by decide) (by decide)

/-! ### Lemmas about the annotation stage -/

theorem map_narrative_zipWith :
    ∀ (l : List ClassifiedRow) (ns : List String), ns.length = l.length →
      (List.zipWith AnnotatedRow.mk l ns).map AnnotatedRow.AI_Narrative = ns := by
  intro l
  induction l with
  | nil =>
    intro ns h
    rw [List.length_nil] at h
    obtain rfl := List.length_eq_zero.mp h
    rfl
  | cons a t ih =>
    intro ns h
    cases ns with
    | nil => simp at h
    | cons n nt =>
      simp only [List.zipWith_cons_cons, List.map_cons]
      rw [ih nt (by simpa using h)]

theorem mem_zipWith_mk :
    ∀ (l : List ClassifiedRow) (ns : List String) (a : AnnotatedRow),
      a ∈ List.zipWith AnnotatedRow.mk l ns →
      ∃ r n, r ∈ l ∧ n ∈ ns ∧ a = AnnotatedRow.mk r n := by
  intro l
  induction l with
  | nil => intro ns a h; simp at h
  | cons b t ih =>
    intro ns a h
    cases ns with
    | nil => simp at h
    | cons n nt =>
      rw [List.zipWith_cons_cons] at h
      rcases List.mem_cons.mp h with h1 | h2
      · exact ⟨b, n, List.mem_cons_self _ _, List.mem_cons_self _ _, h1⟩
      · obtain ⟨r, nn, hr, hn, ha⟩ := ih nt a h2
        exact ⟨r, nn, List.mem_cons_of_mem _ hr, List.mem_cons_of_mem _ hn, ha⟩

theorem pairwise_zipWith_mk :
    ∀ (l : List ClassifiedRow) (ns : List String)
      (R : ClassifiedRow → ClassifiedRow → Prop), List.Pairwise R l →
      List.Pairwise (fun x y => R x.classified y.classified)
        (List.zipWith AnnotatedRow.mk l ns) := by
  intro l
  induction l with
  | nil => intro ns R _; simp
  | cons b t ih =>
    intro ns R h
    cases ns with
    | nil => simp
    | cons n nt =>
      rw [List.zipWith_cons_cons]
      rw [List.pairwise_cons] at h ⊢
      obtain ⟨hb, ht⟩ := h
      refine ⟨?_, ih nt R ht⟩
      intro a ha
      obtain ⟨r, nn, hr, _, hae⟩ := mem_zipWith_mk t nt a ha
      subst hae
      exact hb r hr

theorem length_narrativesFor (model : ClassifiedRow → GenResult)
    (display : List ClassifiedRow) :
    (narrativesFor model display).length = display.length := by
  unfold narrativesFor
  rw [List.length_append, List.length_map, List.length_take, List.length_replicate]
  omega

theorem length_displayOf (crows : List ClassifiedRow) :
    (displayOf crows).length = min 20 crows.length := by
  unfold displayOf
  rw [List.length_take, List.length_insertionSort]

theorem pairwise_displayOf (crows : List ClassifiedRow) :
    List.Pairwise tsDesc (displayOf crows) :=
  List.Pairwise.sublist (List.take_sublist 20 _)
    (List.sorted_insertionSort tsDesc crows)

theorem get_crypto_data_ok (rows : List SwapRow) (model : ClassifiedRow → GenResult)
    (crows : List ClassifiedRow) (hne : rows ≠ [])
    (hc : classifyDecoded rows = some crows) :
    get_crypto_data (Except.ok rows) model =
      some ⟨List.zipWith AnnotatedRow.mk (displayOf crows)
              (narrativesFor model (displayOf crows)),
            (displayOf crows).take 10⟩ := by
  unfold get_crypto_data
  dsimp only
  rw [if_neg (by simpa using hne), hc]

theorem get_crypto_data_none (rows : List SwapRow) (model : ClassifiedRow → GenResult)
    (hne : rows ≠ []) (hc : classifyDecoded rows = none) :
    get_crypto_data (Except.ok rows) model = none := by
  unfold get_crypto_data
  dsimp only
  rw [if_neg (by simpa using hne), hc]

/-- C7: a failed fetch (the caught BigQuery exception) and an empty fetch
both make the run return the empty result without raising, and no
narrative-service call is made (the call list is empty). -/
theorem empty_or_failed_fetch_returns_empty (model : ClassifiedRow → GenResult) :
    get_crypto_data (Except.error ()) model = some ⟨[], []⟩ ∧
    get_crypto_data (Except.ok []) model = some ⟨[], []⟩ :=
  ⟨rfl, rfl⟩

/-- C5: a rate-limit/quota failure on one event yields the fixed
"analysis unavailable" neutral-tagged narrative for exactly that event; any
other failure yields the fixed "analysis failed" neutral-tagged narrative;
and the run's success and the number of annotated events do not depend on
the narrative service at all, so a narrative failure never aborts the run
or drops the remaining events. -/
theorem narrative_failure_containment :
    (∀ (model : ClassifiedRow → GenResult) (r : ClassifiedRow),
        model r = GenResult.rateLimited →
        narrativeFor model r = ("analysis unavailable (api limit). [neutral]")) ∧
    (∀ (model : ClassifiedRow → GenResult) (r : ClassifiedRow),
        model r = GenResult.err →
        narrativeFor model r = ("analysis failed. [neutral]")) ∧
    (∀ (fetch : Except Unit (List SwapRow)) (m1 m2 : ClassifiedRow → GenResult),
        (get_crypto_data fetch m1).isSome = (get_crypto_data fetch m2).isSome ∧
        (get_crypto_data fetch m1).map (fun o => o.rows.length)
          = (get_crypto_data fetch m2).map (fun o => o.rows.length)) := by
  refine ⟨?_, ?_, ?_⟩
  · intro model r h
    unfold narrativeFor
    rw [h]
  · intro model r h
    unfold narrativeFor
    rw [h]
  · intro fetch m1 m2
    cases fetch with
    | error e => exact ⟨rfl, rfl⟩
    | ok rows =>
      by_cases he : rows = []
      · subst he
        exact ⟨rfl, rfl⟩
      · cases hc : classifyDecoded rows with
        | none =>
          rw [get_crypto_data_none rows m1 he hc, get_crypto_data_none rows m2 he hc]
          exact ⟨rfl, rfl⟩
        | some crows =>
          rw [get_crypto_data_ok rows m1 crows he hc,
            get_crypto_data_ok rows m2 crows he hc]
          refine ⟨rfl, ?_⟩
          simp only [Option.map_some']
          congr 1
          rw [List.length_zipWith, List.length_zipWith,
            length_narrativesFor, length_narrativesFor]

/-- Witness for C5 at a concrete event: the rate-limited fallback and the
generic-error fallback are produced as stated. -/
theorem narrative_failure_containment_witness :
    narrativeFor (fun _ => GenResult.rateLimited) witC3c
        = ("analysis unavailable (api limit). [neutral]") ∧
    narrativeFor (fun _ => GenResult.err) witC3c
        = ("analysis failed. [neutral]") :=
  ⟨narrative_failure_containment.1 (fun _ => GenResult.rateLimited) witC3c rfl,
   narrative_failure_containment.2.1 (fun _ => GenResult.err) witC3c rfl⟩

/-- C8: for every non-empty fetched event set (whose payloads decode), the
returned result holds at most 20 annotated events, ordered newest first,
and every returned event carries a narrative string: either the outcome of
a narrative attempt or the fixed skipped placeholder. -/
theorem run_result_shape (rows : List SwapRow) (model : ClassifiedRow → GenResult)
    (out : RunOutput) (hne : rows ≠ [])
    (hrun : get_crypto_data (Except.ok rows) model = some out) :
    out.rows.length ≤ 20 ∧
    List.Pairwise
      (fun x y => y.classified.row.block_timestamp ≤ x.classified.row.block_timestamp)
      out.rows ∧
    ∀ a ∈ out.rows,
      (∃ r, a.AI_Narrative = narrativeFor model r) ∨ a.AI_Narrative = skippedText := by
  cases hc : classifyDecoded rows with
  | none =>
    rw [get_crypto_data_none rows model hne hc] at hrun
    exact absurd hrun (by simp)
  | some crows =>
    rw [get_crypto_data_ok rows model crows hne hc] at hrun
    obtain rfl := Option.some.inj hrun
    refine ⟨?_, ?_, ?_⟩
    · dsimp only
      rw [List.length_zipWith, length_narrativesFor, Nat.min_self, length_displayOf]
      exact Nat.min_le_left _ _
    · dsimp only
      exact pairwise_zipWith_mk _ _ tsDesc (pairwise_displayOf crows)
    · dsimp only
      intro a ha
      obtain ⟨r, n, _, hn, hae⟩ := mem_zipWith_mk _ _ a ha
      subst hae
      unfold narrativesFor at hn
      rcases List.mem_append.mp hn with h | h
      · obtain ⟨r2, _, hre⟩ := List.mem_map.mp h
        exact Or.inl ⟨r2, hre.symm⟩
      · exact Or.inr (List.mem_replicate.mp h).2

/-- A one-event fetch used by the C8 witness. -/
def witC8row : SwapRow := ⟨"c", "p", "", 0, 42⟩

/-- Output of the one-event run under an always-rate-limited service. -/
def witC8out : RunOutput :=
  ⟨[⟨⟨witC8row, 0, 0, false⟩, "analysis unavailable (api limit). [neutral]"⟩],
   [⟨witC8row, 0, 0, false⟩]⟩

/-- Witness for C8 on the concrete one-event run. -/
theorem run_result_shape_witness :
    witC8out.rows.length ≤ 20 ∧
    List.Pairwise
      (fun x y => y.classified.row.block_timestamp ≤ x.classified.row.block_timestamp)
      witC8out.rows ∧
    ∀ a ∈ witC8out.rows,
      (∃ r, a.AI_Narrative = narrativeFor (fun _ => GenResult.rateLimited) r) ∨
        a.AI_Narrative = skippedText :=
  run_result_shape [witC8row] (fun _ => GenResult.rateLimited) witC8out
    (by decide) (by decide)

/-- C4: with exactly 15 fetched (decodable) events, the run issues a
narrative call for precisely the first 10 events of the display set, each of
which receives the attempt's outcome (service text or fallback), while the
remaining 5 display events receive the fixed skipped placeholder with no
call made for them. -/
theorem fifteen_event_annotation (rows : List SwapRow)
    (model : ClassifiedRow → GenResult) (crows : List ClassifiedRow)
    (out : RunOutput) (h15 : rows.length = 15)
    (hc : classifyDecoded rows = some crows)
    (hrun : get_crypto_data (Except.ok rows) model = some out) :
    out.calls = (displayOf crows).take 10 ∧
    out.calls.length = 10 ∧
    out.rows.map AnnotatedRow.AI_Narrative =
      ((displayOf crows).take 10).map (narrativeFor model) ++
        List.replicate 5 skippedText := by
  have hne : rows ≠ [] := by
    intro h
    rw [h] at h15
    simp at h15
  rw [get_crypto_data_ok rows model crows hne hc] at hrun
  obtain rfl := Option.some.inj hrun
  have hcl : crows.length = 15 := by
    rw [optionMapList_length (decodeClassifyOne rows) rows crows hc, h15]
  have hd : (displayOf crows).length = 15 := by
    rw [length_displayOf, hcl]
    decide
  refine ⟨rfl, ?_, ?_⟩
  · dsimp only
    rw [List.length_take, hd]
    decide
  · dsimp only
    rw [map_narrative_zipWith _ _ (length_narrativesFor model _)]
    unfold narrativesFor
    rw [hd]

/-- Row builder for the 15-event witness run. -/
def witC4row (s : String) (t : Int) : SwapRow := ⟨s, "p", "", 0, t⟩

/-- Fifteen events with distinct actors and strictly descending timestamps. -/
def witC4rows : List SwapRow :=
  [witC4row ("s01") 150, witC4row ("s02") 140, witC4row ("s03") 130,
   witC4row ("s04") 120, witC4row ("s05") 110, witC4row ("s06") 100,
   witC4row ("s07") 90, witC4row ("s08") 80, witC4row ("s09") 70,
   witC4row ("s10") 60, witC4row ("s11") 50, witC4row ("s12") 40,
   witC4row ("s13") 30, witC4row ("s14") 20, witC4row ("s15") 10]

/-- Classified form of the 15-event run (all actors trade once). -/
def witC4crows : List ClassifiedRow :=
  witC4rows.map (fun r => ⟨r, 0, 0, false⟩)

/-- An always-rate-limited narrative service. -/
def witC4model : ClassifiedRow → GenResult := fun _ => GenResult.rateLimited

/-- Expected output of the 15-event run: 10 fallback narratives, then 5
skipped placeholders. -/
def witC4out : RunOutput :=
  ⟨(witC4crows.take 10).map
      (fun c => ⟨c, "analysis unavailable (api limit). [neutral]"⟩)
    ++ (witC4crows.drop 10).map (fun c => ⟨c, skippedText⟩),
   witC4crows.take 10⟩

/-- Witness for C4 on the concrete 15-event run. -/
theorem fifteen_event_annotation_witness :
    witC4out.calls = (displayOf witC4crows).take 10 ∧
    witC4out.calls.length = 10 ∧
    witC4out.rows.map AnnotatedRow.AI_Narrative =
      ((displayOf witC4crows).take 10).map (narrativeFor witC4model) ++
        List.replicate 5 skippedText :=
  fifteen_event_annotation witC4rows witC4model witC4crows witC4out
    (by decide) (by decide) (by decide)

/-- C10: whenever the display set has m at most 10 events, every one of
them is attempted against the narrative service, no skipped placeholder is
produced, and the narrative column aligns one to one with the m display
events. -/
theorem small_display_all_attempted (rows : List SwapRow)
    (model : ClassifiedRow → GenResult) (crows : List ClassifiedRow)
    (out : RunOutput) (hne : rows ≠ [])
    (hc : classifyDecoded rows = some crows)
    (hlen : (displayOf crows).length ≤ 10)
    (hrun : get_crypto_data (Except.ok rows) model = some out) :
    out.calls = displayOf crows ∧
    out.rows.map AnnotatedRow.AI_Narrative
      = (displayOf crows).map (narrativeFor model) ∧
    out.rows.length = (displayOf crows).length := by
  rw [get_crypto_data_ok rows model crows hne hc] at hrun
  obtain rfl := Option.some.inj hrun
  have htake : (displayOf crows).take 10 = displayOf crows :=
    List.take_of_length_le hlen
  refine ⟨htake, ?_, ?_⟩
  · dsimp only
    rw [map_narrative_zipWith _ _ (length_narrativesFor model _)]
    unfold narrativesFor
    rw [htake]
    have h0 : (displayOf crows).length - 10 = 0 := by omega
    rw [h0, List.replicate_zero, List.append_nil]
  · dsimp only
    rw [List.length_zipWith, length_narrativesFor, Nat.min_self]

/-- Expected output of the three-event run under the always-rate-limited
service: all three events attempted, none skipped. -/
def witC10out : RunOutput :=
  ⟨[⟨⟨witRowC, 0, 0, false⟩, "analysis unavailable (api limit). [neutral]"⟩,
    ⟨⟨witRowB, 0, 0, true⟩, "analysis unavailable (api limit). [neutral]"⟩,
    ⟨⟨witRowA, 0, 0, true⟩, "analysis unavailable (api limit). [neutral]"⟩],
   [⟨witRowC, 0, 0, false⟩, ⟨witRowB, 0, 0, true⟩, ⟨witRowA, 0, 0, true⟩]⟩

/-- Witness for C10 on the concrete three-event run. -/
theorem small_display_all_attempted_witness :
    witC10out.calls = displayOf witC6crows ∧
    witC10out.rows.map AnnotatedRow.AI_Narrative
      = (displayOf witC6crows).map (narrativeFor witC4model) ∧
    witC10out.rows.length = (displayOf witC6crows).length :=
  small_display_all_attempted witC6rows witC4model witC6crows witC10out
    (by decide) (by decide) (by decide) (by decide)
